import Mathlib

/-!
Shallow embedding of the Lite Planner App (in-memory task/agent CRUD service).

The store (src/storage.py) is a pair of Python dicts keyed by id; we model a
dict as an insertion-ordered association list with unique keys: lookup finds
the first matching key, assignment replaces in place when the key is present
and appends at the end otherwise (Python dict semantics), deletion removes the
entry.  The request handlers of src/routers/tasks.py, agents.py, dashboard.py
become pure functions over an explicit `State`; fallible handlers return
`Except ApiError`.  Pydantic request-model validation (src/models.py) becomes
explicit parse functions returning `Except`.  Timestamps and freshly generated
uuids are inputs supplied by the environment, so they appear as extra `String`
arguments of the handlers.
-/

namespace Planner

/-- Lookup in a Python-dict-like association list: first entry with the key. -/
def storeGet {α : Type} (s : List (String × α)) (k : String) : Option α :=
  match s with
  | [] => none
  | (k1, v) :: rest => if k1 = k then some v else storeGet rest k

/-- Dict assignment `d[k] = v`: replace in place when present, append when absent. -/
def storeSet {α : Type} (s : List (String × α)) (k : String) (v : α) :
    List (String × α) :=
  match s with
  | [] => [(k, v)]
  | (k1, v1) :: rest =>
    if k1 = k then (k, v) :: rest else (k1, v1) :: storeSet rest k v

/-- Dict deletion `del d[k]`: remove the entry with the key. -/
def storeErase {α : Type} (s : List (String × α)) (k : String) :
    List (String × α) :=
  match s with
  | [] => []
  | (k1, v1) :: rest =>
    if k1 = k then rest else (k1, v1) :: storeErase rest k

/-- Dict iteration `d.values()` in insertion order. -/
def storeValues {α : Type} (s : List (String × α)) : List α :=
  s.map Prod.snd

/-- Agent record as stored in `storage.agents` and returned by the API
(src/models.py `Agent`: id, name, role). -/
structure AgentRec where
  id : String
  name : String
  role : String
deriving Repr, DecidableEq

/-- Task record as stored in `storage.tasks` and returned by the API
(src/models.py `Task`). -/
structure TaskRec where
  id : String
  title : String
  description : String
  priority : String
  status : String
  created_at : String
  updated_at : Option String
  assigned_to : Option AgentRec
deriving Repr, DecidableEq

/-- The whole in-memory store of src/storage.py: `agents` and `tasks` dicts. -/
structure State where
  agents : List (String × AgentRec)
  tasks : List (String × TaskRec)
deriving Repr, DecidableEq

/-- The empty store at process start. -/
def initState : State := ⟨[], []⟩

/-- src/models.py VALID_PRIORITIES. -/
def VALID_PRIORITIES : List String := ["low", "medium", "high"]

/-- src/models.py VALID_STATUSES. -/
def VALID_STATUSES : List String := ["todo", "in_progress", "review", "done"]

/-- The only error kinds surfaced by the service: Pydantic validation failure
(HTTP 422) and HTTPException 404 with its detail string. -/
inductive ApiError where
  | validationFailed (msg : String)
  | notFound (detail : String)
deriving Repr, DecidableEq

/-- src/models.py `TaskCreate` after validation. -/
structure TaskCreate where
  title : String
  description : String
  priority : String
deriving Repr, DecidableEq

/-- Pydantic construction of `TaskCreate`: priority defaults to "medium" when
absent; a supplied priority must pass `validate_priority`. -/
def TaskCreate.mk? (title description : String) (priority : Option String) :
    Except ApiError TaskCreate :=
  match priority with
  | none => .ok ⟨title, description, "medium"⟩
  | some p =>
    if p ∈ VALID_PRIORITIES then .ok ⟨title, description, p⟩
    else .error (.validationFailed "priority must be one of [high, low, medium]")

/-- src/models.py `TaskUpdate` after validation: all fields optional. -/
structure TaskUpdate where
  title : Option String
  description : Option String
  priority : Option String
deriving Repr, DecidableEq

/-- Pydantic construction of `TaskUpdate`: a supplied priority must pass
`validate_priority`; absent fields stay absent. -/
def TaskUpdate.mk? (title description priority : Option String) :
    Except ApiError TaskUpdate :=
  match priority with
  | none => .ok ⟨title, description, none⟩
  | some p =>
    if p ∈ VALID_PRIORITIES then .ok ⟨title, description, some p⟩
    else .error (.validationFailed "priority must be one of [high, low, medium]")

/-- src/models.py `StatusUpdate` after validation. -/
structure StatusUpdate where
  status : String
deriving Repr, DecidableEq

/-- Pydantic construction of `StatusUpdate`: status must pass `validate_status`. -/
def StatusUpdate.mk? (status : String) : Except ApiError StatusUpdate :=
  if status ∈ VALID_STATUSES then .ok ⟨status⟩
  else .error (.validationFailed "status must be one of [done, in_progress, review, todo]")

/-- src/models.py `AssignUpdate` (no validator). -/
structure AssignUpdate where
  agent_id : String
deriving Repr, DecidableEq

/-- src/models.py `AgentCreate` (no validator). -/
structure AgentCreate where
  name : String
  role : String
deriving Repr, DecidableEq

/-- src/routers/agents.py `create_agent`: store and return a fresh agent record;
`agent_id` is the uuid generated by the handler. -/
def create_agent (st : State) (agent_id : String) (body : AgentCreate) :
    State × AgentRec :=
  let record : AgentRec := { id := agent_id, name := body.name, role := body.role }
  ({ st with agents := storeSet st.agents agent_id record }, record)

/-- src/routers/agents.py `list_agents`: all agents in storage order. -/
def list_agents (st : State) : List AgentRec :=
  storeValues st.agents

/-- src/routers/agents.py `get_agent`: lookup or 404. -/
def get_agent (st : State) (agent_id : String) : Except ApiError AgentRec :=
  match storeGet st.agents agent_id with
  | none => .error (.notFound "Agent not found")
  | some record => .ok record

/-- src/routers/tasks.py `create_task`: store a fresh record with status todo,
no update timestamp and no assignee; `task_id` is the generated uuid and `now`
the `_now_iso()` timestamp. -/
def create_task (st : State) (task_id now : String) (body : TaskCreate) :
    State × TaskRec :=
  let record : TaskRec :=
    { id := task_id
      title := body.title
      description := body.description
      priority := body.priority
      status := "todo"
      created_at := now
      updated_at := none
      assigned_to := none }
  ({ st with tasks := storeSet st.tasks task_id record }, record)

/-- src/routers/tasks.py `list_tasks`: all tasks, then the three optional
filters applied in sequence exactly as in the handler. -/
def list_tasks (st : State) (status_filter assigned_to priority : Option String) :
    List TaskRec :=
  let results := storeValues st.tasks
  let results :=
    match status_filter with
    | none => results
    | some s => results.filter (fun t => t.status = s)
  let results :=
    match assigned_to with
    | none => results
    | some a =>
      results.filter (fun t =>
        match t.assigned_to with
        | none => false
        | some snap => snap.id = a)
  let results :=
    match priority with
    | none => results
    | some p => results.filter (fun t => t.priority = p)
  results

/-- src/routers/tasks.py `update_task_status`: 404 when the task is absent,
otherwise overwrite status and refresh updated_at. -/
def update_task_status (st : State) (task_id now : String) (body : StatusUpdate) :
    Except ApiError (State × TaskRec) :=
  match storeGet st.tasks task_id with
  | none => .error (.notFound "Task not found")
  | some record =>
    let record := { record with status := body.status, updated_at := some now }
    .ok ({ st with tasks := storeSet st.tasks task_id record }, record)

/-- src/routers/tasks.py `assign_task`: task 404 checked first, then agent 404,
then overwrite assigned_to with a snapshot copy of the agent and refresh
updated_at. -/
def assign_task (st : State) (task_id now : String) (body : AssignUpdate) :
    Except ApiError (State × TaskRec) :=
  match storeGet st.tasks task_id with
  | none => .error (.notFound "Task not found")
  | some record =>
    match storeGet st.agents body.agent_id with
    | none => .error (.notFound "Agent not found")
    | some agent =>
      let record :=
        { record with
          assigned_to := some { id := agent.id, name := agent.name, role := agent.role }
          updated_at := some now }
      .ok ({ st with tasks := storeSet st.tasks task_id record }, record)

/-- src/routers/tasks.py `get_task`: lookup or 404. -/
def get_task (st : State) (task_id : String) : Except ApiError TaskRec :=
  match storeGet st.tasks task_id with
  | none => .error (.notFound "Task not found")
  | some record => .ok record

/-- src/routers/tasks.py `update_task`: 404 when absent; apply only the
non-None fields of the body; refresh updated_at unconditionally. -/
def update_task (st : State) (task_id now : String) (body : TaskUpdate) :
    Except ApiError (State × TaskRec) :=
  match storeGet st.tasks task_id with
  | none => .error (.notFound "Task not found")
  | some record =>
    let record :=
      match body.title with
      | none => record
      | some t => { record with title := t }
    let record :=
      match body.description with
      | none => record
      | some d => { record with description := d }
    let record :=
      match body.priority with
      | none => record
      | some p => { record with priority := p }
    let record := { record with updated_at := some now }
    .ok ({ st with tasks := storeSet st.tasks task_id record }, record)

/-- src/routers/tasks.py `delete_task`: 404 when absent, otherwise remove the
record from the tasks dict. -/
def delete_task (st : State) (task_id : String) : Except ApiError State :=
  match storeGet st.tasks task_id with
  | none => .error (.notFound "Task not found")
  | some _ => .ok { st with tasks := storeErase st.tasks task_id }

/-- The summary shape of src/models.py `DashboardResponse`; the two count maps
are kept as ordered key/count lists mirroring the dict literals in the handler. -/
structure DashboardResponse where
  total : Nat
  by_status : List (String × Nat)
  by_priority : List (String × Nat)
deriving Repr, DecidableEq

/-- Dict increment `if k in d: d[k] += 1` on a fixed-key counter dict. -/
def incrIfKey (d : List (String × Nat)) (k : String) : List (String × Nat) :=
  d.map (fun kv => if kv.1 = k then (kv.1, kv.2 + 1) else kv)

/-- src/routers/dashboard.py `get_dashboard`: one pass over all tasks,
counting by status and by priority into zero-filled dicts; a value outside the
dict keys is skipped by the membership test. -/
def get_dashboard (st : State) : DashboardResponse :=
  let all_tasks := storeValues st.tasks
  let counts :=
    all_tasks.foldl
      (fun (acc : List (String × Nat) × List (String × Nat)) task =>
        (incrIfKey acc.1 task.status, incrIfKey acc.2 task.priority))
      ([("todo", 0), ("in_progress", 0), ("review", 0), ("done", 0)],
       [("low", 0), ("medium", 0), ("high", 0)])
  { total := all_tasks.length
    by_status := counts.1
    by_priority := counts.2 }

/-- One exposed operation of the service, with the environment-supplied uuid
and timestamp inputs inlined as parameters.  Bodies are carried raw (pre
validation): the step function runs the Pydantic parse first, exactly as
FastAPI does before a handler runs. -/
inductive Op where
  | createAgent (agent_id name role : String)
  | listAgents
  | getAgent (agent_id : String)
  | createTask (task_id now title description : String) (priority : Option String)
  | listTasks (status_filter assigned_to priority : Option String)
  | getTask (task_id : String)
  | updateTask (task_id now : String) (title description priority : Option String)
  | deleteTask (task_id : String)
  | setStatus (task_id now new_status : String)
  | assign (task_id now agent_id : String)
  | summarize
deriving Repr, DecidableEq

/-- State transition of one request: validation failures and 404s leave the
store unchanged; reads never touch the store. -/
def step (st : State) (op : Op) : State :=
  match op with
  | .createAgent agent_id name role => (create_agent st agent_id ⟨name, role⟩).1
  | .listAgents => st
  | .getAgent _ => st
  | .createTask task_id now title description priority =>
    match TaskCreate.mk? title description priority with
    | .error _ => st
    | .ok body => (create_task st task_id now body).1
  | .listTasks _ _ _ => st
  | .getTask _ => st
  | .updateTask task_id now title description priority =>
    match TaskUpdate.mk? title description priority with
    | .error _ => st
    | .ok body =>
      match update_task st task_id now body with
      | .error _ => st
      | .ok (st1, _) => st1
  | .deleteTask task_id =>
    match delete_task st task_id with
    | .error _ => st
    | .ok st1 => st1
  | .setStatus task_id now new_status =>
    match StatusUpdate.mk? new_status with
    | .error _ => st
    | .ok body =>
      match update_task_status st task_id now body with
      | .error _ => st
      | .ok (st1, _) => st1
  | .assign task_id now agent_id =>
    match assign_task st task_id now ⟨agent_id⟩ with
    | .error _ => st
    | .ok (st1, _) => st1
  | .summarize => st

/-- Run a whole request trace from the empty store. -/
def run (ops : List Op) : State :=
  ops.foldl step initState

/-- The key list of a store, in insertion order. -/
def storeKeys {α : Type} (s : List (String × α)) : List String :=
  s.map Prod.fst

/-- Boolean success test for an Except value. -/
def isOkB {ε α : Type} : Except ε α → Bool
  | .ok _ => true
  | .error _ => false

/-- The task id a createTask request attempts to store under. -/
def opCreates : Op → List String
  | .createTask task_id _ _ _ _ => [task_id]
  | _ => []

/-- The task ids that createTask requests of a trace attempt to store under.
Freshness of these ids models the uuid4 generation of the handlers. -/
def createdTaskIds : List Op → List String
  | [] => []
  | op :: rest => opCreates op ++ createdTaskIds rest

/-- The id of the task a mutating operation (update, set_status, assign)
successfully modifies on the given state, when it does: validation must pass
and the looked-up records must exist, mirroring the handler control flow. -/
def mutatedId (st : State) (op : Op) : Option String :=
  match op with
  | .updateTask task_id _ title description priority =>
    if isOkB (TaskUpdate.mk? title description priority)
        && (storeGet st.tasks task_id).isSome
    then some task_id else none
  | .setStatus task_id _ new_status =>
    if isOkB (StatusUpdate.mk? new_status) && (storeGet st.tasks task_id).isSome
    then some task_id else none
  | .assign task_id _ agent_id =>
    if (storeGet st.tasks task_id).isSome && (storeGet st.agents agent_id).isSome
    then some task_id else none
  | _ => none

/-- The `_now_iso()` timestamp a mutating operation would write. -/
def opNow : Op → Option String
  | .updateTask _ now _ _ _ => some now
  | .setStatus _ now _ => some now
  | .assign _ now _ => some now
  | _ => none

/-- The task ids successfully mutated along a trace started in `st`. -/
def mutatedIds : State → List Op → List String
  | _, [] => []
  | st, op :: rest => (mutatedId st op).toList ++ mutatedIds (step st op) rest

/-- Every stored task has an in-enumeration priority and status. -/
def stateWF (st : State) : Prop :=
  ∀ e ∈ st.tasks, e.2.priority ∈ VALID_PRIORITIES ∧ e.2.status ∈ VALID_STATUSES

/-- A sample stored task, used to instantiate theorems at concrete states. -/
def sampleTask : TaskRec :=
  { id := "t1"
    title := "T"
    description := "D"
    priority := "medium"
    status := "todo"
    created_at := "ts0"
    updated_at := none
    assigned_to := none }

/-- A sample stored agent. -/
def sampleAgent : AgentRec := { id := "a1", name := "Alice", role := "senior_dev" }

/-- A store holding exactly one task and no agents. -/
def oneTaskState : State := ⟨[], [("t1", sampleTask)]⟩

/-- A store holding one task and one agent. -/
def taskAgentState : State := ⟨[("a1", sampleAgent)], [("t1", sampleTask)]⟩

/-- The record produced by update_task from a stored record and a validated
body: the three optional overwrites followed by the unconditional updated_at
refresh, exactly as in the handler. -/
def applyTaskUpdate (t0 : TaskRec) (body : TaskUpdate) (now : String) : TaskRec :=
  let r1 :=
    match body.title with
    | none => t0
    | some t => { t0 with title := t }
  let r2 :=
    match body.description with
    | none => r1
    | some d => { r1 with description := d }
  let r3 :=
    match body.priority with
    | none => r2
    | some p => { r2 with priority := p }
  { r3 with updated_at := some now }

/-- The AND-conjunction of the supplied list filters as the spec words it:
exact match on status, exact match on the id of the embedded assigned_to
snapshot (an unassigned task never matches a supplied assigned_to filter),
and exact match on priority; an absent filter does not filter. -/
def filterConj (status_filter assigned_to priority : Option String)
    (t : TaskRec) : Bool :=
  (match status_filter with
   | none => true
   | some s => decide (t.status = s)) &&
  (match assigned_to with
   | none => true
   | some a0 =>
     match t.assigned_to with
     | none => false
     | some snap => decide (snap.id = a0)) &&
  (match priority with
   | none => true
   | some p => decide (t.priority = p))

theorem storeGet_storeSet_self {α : Type} (s : List (String × α)) (k : String) (v : α) :
    storeGet (storeSet s k v) k = some v := by
  induction s with
  | nil => simp [storeSet, storeGet]
  | cons hd tl ih =>
    obtain ⟨a, b⟩ := hd
    by_cases h : a = k
    · simp [storeSet, h, storeGet]
    · simpa [storeSet, h, storeGet] using ih

theorem storeGet_storeSet_ne {α : Type} (s : List (String × α)) (k k1 : String) (v : α)
    (h : k1 ≠ k) : storeGet (storeSet s k v) k1 = storeGet s k1 := by
  induction s with
  | nil => simp [storeSet, storeGet, Ne.symm h]
  | cons hd tl ih =>
    obtain ⟨a, b⟩ := hd
    by_cases h1 : a = k
    · subst h1
      simp [storeSet, storeGet, Ne.symm h]
    · by_cases h2 : a = k1 <;> simp [storeSet, storeGet, h, h1, h2, ih]

theorem storeGet_eq_none_iff {α : Type} (s : List (String × α)) (k : String) :
    storeGet s k = none ↔ k ∉ storeKeys s := by
  induction s with
  | nil => simp [storeGet, storeKeys]
  | cons hd tl ih =>
    obtain ⟨a, b⟩ := hd
    simp only [storeKeys, List.map_cons, List.mem_cons, not_or]
    simp only [storeKeys] at ih
    by_cases h : a = k
    · simp [storeGet, h]
    · simp [storeGet, h, ih, Ne.symm h]

theorem storeKeys_storeSet {α : Type} (s : List (String × α)) (k : String) (v : α) :
    storeKeys (storeSet s k v) =
      if k ∈ storeKeys s then storeKeys s else storeKeys s ++ [k] := by
  induction s with
  | nil => simp [storeSet, storeKeys]
  | cons hd tl ih =>
    obtain ⟨a, b⟩ := hd
    by_cases h : a = k
    · simp [storeSet, storeKeys, h]
    · simp only [storeSet, if_neg h, storeKeys, List.map_cons, List.mem_cons]
      simp only [storeKeys] at ih
      rw [ih]
      by_cases h2 : k ∈ tl.map Prod.fst <;> simp [h2, Ne.symm h]

theorem storeKeys_storeErase_sublist {α : Type} (s : List (String × α)) (k : String) :
    (storeKeys (storeErase s k)).Sublist (storeKeys s) := by
  induction s with
  | nil => simp [storeErase, storeKeys]
  | cons hd tl ih =>
    obtain ⟨a, b⟩ := hd
    by_cases h : a = k
    · simp only [storeErase, if_pos h, storeKeys, List.map_cons]
      exact (List.sublist_cons_self _ _)
    · simp only [storeErase, if_neg h, storeKeys, List.map_cons]
      exact ih.cons₂ _

theorem storeGet_storeErase_self {α : Type} (s : List (String × α)) (k : String)
    (hnd : (storeKeys s).Nodup) : storeGet (storeErase s k) k = none := by
  induction s with
  | nil => simp [storeErase, storeGet]
  | cons hd tl ih =>
    obtain ⟨a, b⟩ := hd
    simp only [storeKeys, List.map_cons, List.nodup_cons] at hnd
    by_cases h : a = k
    · subst h
      simp only [storeErase, if_pos rfl]
      rw [storeGet_eq_none_iff]
      exact hnd.1
    · simp only [storeErase, if_neg h, storeGet, if_neg h]
      exact ih hnd.2

theorem storeGet_storeErase_ne {α : Type} (s : List (String × α)) (k k1 : String)
    (h : k1 ≠ k) : storeGet (storeErase s k) k1 = storeGet s k1 := by
  induction s with
  | nil => simp [storeErase, storeGet]
  | cons hd tl ih =>
    obtain ⟨a, b⟩ := hd
    by_cases h1 : a = k
    · subst h1
      simp [storeErase, storeGet, Ne.symm h]
    · by_cases h2 : a = k1 <;> simp [storeErase, storeGet, h, h1, h2, ih]

theorem mem_storeSet {α : Type} (s : List (String × α)) (k : String) (v : α)
    (p : String × α) (hp : p ∈ storeSet s k v) : p = (k, v) ∨ p ∈ s := by
  induction s with
  | nil => simpa [storeSet] using hp
  | cons hd tl ih =>
    obtain ⟨a, b⟩ := hd
    by_cases h : a = k
    · simp only [storeSet, if_pos h, List.mem_cons] at hp
      rcases hp with h1 | h1
      · exact Or.inl h1
      · exact Or.inr (List.mem_cons_of_mem _ h1)
    · simp only [storeSet, if_neg h, List.mem_cons] at hp
      rcases hp with h1 | h1
      · exact Or.inr (by simp [h1])
      · rcases ih h1 with h2 | h2
        · exact Or.inl h2
        · exact Or.inr (List.mem_cons_of_mem _ h2)

theorem mem_storeErase {α : Type} (s : List (String × α)) (k : String)
    (p : String × α) (hp : p ∈ storeErase s k) : p ∈ s := by
  induction s with
  | nil => simp [storeErase] at hp
  | cons hd tl ih =>
    obtain ⟨a, b⟩ := hd
    by_cases h : a = k
    · simp only [storeErase, if_pos h] at hp
      exact List.mem_cons_of_mem _ hp
    · simp only [storeErase, if_neg h, List.mem_cons] at hp
      rcases hp with h1 | h1
      · simp [h1]
      · exact List.mem_cons_of_mem _ (ih h1)

theorem storeGet_mem {α : Type} (s : List (String × α)) (k : String) (v : α)
    (h : storeGet s k = some v) : (k, v) ∈ s := by
  induction s with
  | nil => simp [storeGet] at h
  | cons hd tl ih =>
    obtain ⟨a, b⟩ := hd
    by_cases h1 : a = k
    · simp only [storeGet, if_pos h1] at h
      cases h
      subst h1
      simp
    · simp only [storeGet, if_neg h1] at h
      exact List.mem_cons_of_mem _ (ih h)

theorem storeKeys_nodup_storeSet {α : Type} (s : List (String × α)) (k : String) (v : α)
    (hnd : (storeKeys s).Nodup) : (storeKeys (storeSet s k v)).Nodup := by
  rw [storeKeys_storeSet]
  by_cases h : k ∈ storeKeys s
  · simpa [h] using hnd
  · simpa [h, List.nodup_append] using hnd

theorem storeKeys_nodup_storeErase {α : Type} (s : List (String × α)) (k : String)
    (hnd : (storeKeys s).Nodup) : (storeKeys (storeErase s k)).Nodup :=
  (storeKeys_storeErase_sublist s k).nodup hnd

theorem TaskCreate_mk_ok_priority (title description : String) (priority : Option String)
    (body : TaskCreate) (hv : TaskCreate.mk? title description priority = .ok body) :
    body = ⟨title, description, priority.getD "medium"⟩ ∧
      body.priority ∈ VALID_PRIORITIES := by
  cases priority with
  | none =>
    simp only [TaskCreate.mk?] at hv
    cases hv
    exact ⟨rfl, by simp [VALID_PRIORITIES]⟩
  | some p =>
    simp only [TaskCreate.mk?] at hv
    split at hv
    · cases hv
      exact ⟨rfl, by assumption⟩
    · exact Except.noConfusion hv

theorem TaskUpdate_mk_ok (title description priority : Option String)
    (body : TaskUpdate) (hv : TaskUpdate.mk? title description priority = .ok body) :
    body = ⟨title, description, priority⟩ ∧
      ∀ p, priority = some p → p ∈ VALID_PRIORITIES := by
  cases priority with
  | none =>
    simp only [TaskUpdate.mk?] at hv
    cases hv
    exact ⟨rfl, by simp⟩
  | some p =>
    simp only [TaskUpdate.mk?] at hv
    split at hv
    · cases hv
      refine ⟨rfl, ?_⟩
      intro p1 hp1
      cases hp1
      assumption
    · exact Except.noConfusion hv

theorem StatusUpdate_mk_ok (new_status : String) (body : StatusUpdate)
    (hv : StatusUpdate.mk? new_status = .ok body) :
    body = ⟨new_status⟩ ∧ body.status ∈ VALID_STATUSES := by
  simp only [StatusUpdate.mk?] at hv
  split at hv
  · cases hv
    exact ⟨rfl, by assumption⟩
  · exact Except.noConfusion hv

/-- C1: a create-task call with title, description and an optional priority
stores and returns a task with status todo, updated_at null, assigned_to
null, the freshly generated id, the creation timestamp, and priority equal
to the supplied value or "medium" when none was supplied. -/
theorem C1_create_task_defaults (st : State)
    (task_id now title description : String) (priority : Option String)
    (body : TaskCreate) (hv : TaskCreate.mk? title description priority = .ok body) :
    (create_task st task_id now body).2.status = "todo" ∧
    (create_task st task_id now body).2.updated_at = none ∧
    (create_task st task_id now body).2.assigned_to = none ∧
    (create_task st task_id now body).2.id = task_id ∧
    (create_task st task_id now body).2.created_at = now ∧
    (create_task st task_id now body).2.title = title ∧
    (create_task st task_id now body).2.description = description ∧
    (create_task st task_id now body).2.priority = priority.getD "medium" ∧
    storeGet (create_task st task_id now body).1.tasks task_id =
      some (create_task st task_id now body).2 := by
  obtain ⟨hb, -⟩ := TaskCreate_mk_ok_priority title description priority body hv
  subst hb
  refine ⟨rfl, rfl, rfl, rfl, rfl, rfl, rfl, rfl, ?_⟩
  exact storeGet_storeSet_self st.tasks task_id _

theorem C1_create_task_defaults_witness :
    TaskCreate.mk? "T" "D" none = .ok ⟨"T", "D", "medium"⟩ ∧
    ((create_task initState "t1" "ts1" ⟨"T", "D", "medium"⟩).2.status = "todo" ∧
     (create_task initState "t1" "ts1" ⟨"T", "D", "medium"⟩).2.updated_at = none ∧
     (create_task initState "t1" "ts1" ⟨"T", "D", "medium"⟩).2.assigned_to = none ∧
     (create_task initState "t1" "ts1" ⟨"T", "D", "medium"⟩).2.id = "t1" ∧
     (create_task initState "t1" "ts1" ⟨"T", "D", "medium"⟩).2.created_at = "ts1" ∧
     (create_task initState "t1" "ts1" ⟨"T", "D", "medium"⟩).2.title = "T" ∧
     (create_task initState "t1" "ts1" ⟨"T", "D", "medium"⟩).2.description = "D" ∧
     (create_task initState "t1" "ts1" ⟨"T", "D", "medium"⟩).2.priority =
       (none : Option String).getD "medium" ∧
     storeGet (create_task initState "t1" "ts1" ⟨"T", "D", "medium"⟩).1.tasks "t1" =
       some (create_task initState "t1" "ts1" ⟨"T", "D", "medium"⟩).2) :=
  ⟨rfl, C1_create_task_defaults initState "t1" "ts1" "T" "D" none ⟨"T", "D", "medium"⟩ rfl⟩

/-- C6: assign fails with the task 404 when the task id is absent (checked
before the agent), with the agent 404 when the task exists but the agent id is
absent, and on either failure the step leaves the whole store unchanged. -/
theorem C6_assign_not_found (st : State) (task_id now agent_id : String) :
    (storeGet st.tasks task_id = none →
      assign_task st task_id now ⟨agent_id⟩ = .error (.notFound "Task not found") ∧
      step st (.assign task_id now agent_id) = st) ∧
    (∀ t0, storeGet st.tasks task_id = some t0 → storeGet st.agents agent_id = none →
      assign_task st task_id now ⟨agent_id⟩ = .error (.notFound "Agent not found") ∧
      step st (.assign task_id now agent_id) = st) := by
  constructor
  · intro h
    constructor
    · simp [assign_task, h]
    · simp [step, assign_task, h]
  · intro t0 ht ha
    constructor
    · simp [assign_task, ht, ha]
    · simp [step, assign_task, ht, ha]

theorem C6_assign_not_found_witness :
    (storeGet initState.tasks "t1" = none ∧
      (assign_task initState "t1" "ts1" ⟨"a1"⟩ = .error (.notFound "Task not found") ∧
       step initState (.assign "t1" "ts1" "a1") = initState)) ∧
    (storeGet oneTaskState.tasks "t1" = some sampleTask ∧
     storeGet oneTaskState.agents "a1" = none ∧
      (assign_task oneTaskState "t1" "ts2" ⟨"a1"⟩ = .error (.notFound "Agent not found") ∧
       step oneTaskState (.assign "t1" "ts2" "a1") = oneTaskState)) :=
  ⟨⟨rfl, (C6_assign_not_found initState "t1" "ts1" "a1").1 rfl⟩,
   ⟨rfl, rfl, (C6_assign_not_found oneTaskState "t1" "ts2" "a1").2 sampleTask rfl rfl⟩⟩

/-- C7: for an existing task and agent, a successful assign followed by a get
yields the task carrying an exact {id, name, role} snapshot of the agent,
replacing any previous snapshot; the snapshot is a copy, so any later change
to the agents collection leaves the read-back task unchanged. -/
theorem C7_assign_snapshot (st : State) (task_id now agent_id : String)
    (t0 : TaskRec) (a : AgentRec)
    (ht : storeGet st.tasks task_id = some t0)
    (ha : storeGet st.agents agent_id = some a) :
    ∃ st1 t1, assign_task st task_id now ⟨agent_id⟩ = .ok (st1, t1) ∧
      get_task st1 task_id = .ok t1 ∧
      t1.assigned_to = some ⟨a.id, a.name, a.role⟩ ∧
      t1 = { t0 with
             assigned_to := some ⟨a.id, a.name, a.role⟩
             updated_at := some now } ∧
      ∀ agents1, get_task { st1 with agents := agents1 } task_id = .ok t1 := by
  refine
    ⟨{ st with
       tasks := storeSet st.tasks task_id
         { t0 with
           assigned_to := some ⟨a.id, a.name, a.role⟩
           updated_at := some now } },
     { t0 with
       assigned_to := some ⟨a.id, a.name, a.role⟩
       updated_at := some now },
     ?_, ?_, rfl, rfl, ?_⟩
  · simp [assign_task, ht, ha]
  · simp [get_task, storeGet_storeSet_self]
  · intro agents1
    simp [get_task, storeGet_storeSet_self]

theorem list_tasks_eq_filter (st : State)
    (status_filter assigned_to priority : Option String) :
    list_tasks st status_filter assigned_to priority =
      (storeValues st.tasks).filter (filterConj status_filter assigned_to priority) := by
  cases status_filter <;> cases assigned_to <;> cases priority <;>
    (first
      | exact (List.filter_eq_self.mpr (fun a _ => rfl)).symm
      | (simp only [list_tasks, List.filter_filter]
         apply List.filter_congr
         intro t _
         cases hsn : t.assigned_to <;>
           simp [filterConj, hsn, Bool.and_comm, Bool.and_left_comm, Bool.and_assoc]))

/-- C5: list returns exactly the tasks satisfying the AND-conjunction of the
supplied filters (exact status match, exact match on the embedded snapshot id
with unassigned tasks never matching, exact priority match), preserving store
iteration order, and with no filters it returns the full collection. -/
theorem C5_list_conjunction (st : State)
    (status_filter assigned_to priority : Option String) :
    list_tasks st status_filter assigned_to priority =
      (storeValues st.tasks).filter (filterConj status_filter assigned_to priority) ∧
    list_tasks st none none none = storeValues st.tasks :=
  ⟨list_tasks_eq_filter st status_filter assigned_to priority, rfl⟩

/-- C4: update overwrites exactly the supplied fields, leaves omitted fields
unchanged, refreshes updated_at unconditionally (also when no field was
supplied), and fails with the task 404 when the id is absent. -/
theorem C4_update_task_fields (st : State) (task_id now : String) (body : TaskUpdate) :
    (storeGet st.tasks task_id = none →
      update_task st task_id now body = .error (.notFound "Task not found")) ∧
    (∀ t0, storeGet st.tasks task_id = some t0 →
      ∃ t1, update_task st task_id now body =
          .ok ({ st with tasks := storeSet st.tasks task_id t1 }, t1) ∧
        t1.title = body.title.getD t0.title ∧
        t1.description = body.description.getD t0.description ∧
        t1.priority = body.priority.getD t0.priority ∧
        t1.updated_at = some now ∧
        t1.id = t0.id ∧ t1.status = t0.status ∧
        t1.created_at = t0.created_at ∧ t1.assigned_to = t0.assigned_to ∧
        storeGet (storeSet st.tasks task_id t1) task_id = some t1) := by
  constructor
  · intro h
    simp [update_task, h]
  · intro t0 h
    obtain ⟨bt, bd, bp⟩ := body
    cases bt <;> cases bd <;> cases bp <;>
      (simp only [update_task, h]
       exact ⟨_, rfl, rfl, rfl, rfl, rfl, rfl, rfl, rfl, rfl,
              storeGet_storeSet_self _ _ _⟩)

theorem C4_update_task_fields_witness :
    storeGet oneTaskState.tasks "t1" = some sampleTask ∧
    (∃ t1, update_task oneTaskState "t1" "ts2" ⟨some "T2", none, none⟩ =
        .ok ({ oneTaskState with tasks := storeSet oneTaskState.tasks "t1" t1 }, t1) ∧
      t1.title = (some "T2").getD sampleTask.title ∧
      t1.description = (none : Option String).getD sampleTask.description ∧
      t1.priority = (none : Option String).getD sampleTask.priority ∧
      t1.updated_at = some "ts2" ∧
      t1.id = sampleTask.id ∧ t1.status = sampleTask.status ∧
      t1.created_at = sampleTask.created_at ∧ t1.assigned_to = sampleTask.assigned_to ∧
      storeGet (storeSet oneTaskState.tasks "t1" t1) "t1" = some t1) :=
  ⟨rfl,
   (C4_update_task_fields oneTaskState "t1" "ts2" ⟨some "T2", none, none⟩).2
     sampleTask rfl⟩

/-- C9: delete fails with the task 404 when the id is absent and otherwise
removes exactly that one task record, leaving every other task and the whole
agent collection (listing and lookup included) unchanged. -/
theorem C9_delete_task_frame (st : State) (task_id : String)
    (hnd : (storeKeys st.tasks).Nodup) :
    (storeGet st.tasks task_id = none →
      delete_task st task_id = .error (.notFound "Task not found")) ∧
    (∀ t0, storeGet st.tasks task_id = some t0 →
      delete_task st task_id = .ok { st with tasks := storeErase st.tasks task_id } ∧
      { st with tasks := storeErase st.tasks task_id }.agents = st.agents ∧
      storeGet (storeErase st.tasks task_id) task_id = none ∧
      (∀ id1, id1 ≠ task_id →
        storeGet (storeErase st.tasks task_id) id1 = storeGet st.tasks id1) ∧
      list_agents { st with tasks := storeErase st.tasks task_id } = list_agents st ∧
      (∀ agent_id, get_agent { st with tasks := storeErase st.tasks task_id } agent_id =
        get_agent st agent_id)) := by
  constructor
  · intro h
    simp [delete_task, h]
  · intro t0 h
    refine ⟨by simp [delete_task, h], rfl, storeGet_storeErase_self _ _ hnd,
            fun id1 h1 => storeGet_storeErase_ne _ _ _ h1, rfl, fun _ => rfl⟩

theorem C9_delete_task_frame_witness :
    storeGet taskAgentState.tasks "t1" = some sampleTask ∧
    delete_task taskAgentState "t1" =
      .ok { taskAgentState with tasks := storeErase taskAgentState.tasks "t1" } ∧
    storeGet (storeErase taskAgentState.tasks "t1") "t1" = none ∧
    list_agents { taskAgentState with tasks := storeErase taskAgentState.tasks "t1" } =
      list_agents taskAgentState ∧
    get_agent { taskAgentState with tasks := storeErase taskAgentState.tasks "t1" } "a1" =
      get_agent taskAgentState "a1" :=
  ⟨rfl,
   ((C9_delete_task_frame taskAgentState "t1" (by decide)).2 sampleTask rfl).1,
   ((C9_delete_task_frame taskAgentState "t1" (by decide)).2 sampleTask rfl).2.2.1,
   ((C9_delete_task_frame taskAgentState "t1" (by decide)).2 sampleTask rfl).2.2.2.2.1,
   ((C9_delete_task_frame taskAgentState "t1" (by decide)).2 sampleTask rfl).2.2.2.2.2 "a1"⟩

/-- C10: the list operation validates none of its filter arguments: it never
fails, it leaves the store unchanged, and an out-of-enumeration filter value
carried by no stored task simply yields an empty result on each of the three
filter dimensions. -/
theorem C10_list_filters_unvalidated (st : State)
    (status_filter assigned_to priority : Option String) (s : String) :
    step st (.listTasks status_filter assigned_to priority) = st ∧
    ((∀ t ∈ storeValues st.tasks, t.status ≠ s) →
      list_tasks st (some s) assigned_to priority = []) ∧
    ((∀ t ∈ storeValues st.tasks, t.priority ≠ s) →
      list_tasks st status_filter assigned_to (some s) = []) ∧
    ((∀ t ∈ storeValues st.tasks, ∀ snap, t.assigned_to = some snap → snap.id ≠ s) →
      list_tasks st status_filter (some s) priority = []) := by
  refine ⟨rfl, ?_, ?_, ?_⟩
  · intro h
    rw [list_tasks_eq_filter, List.filter_eq_nil_iff]
    intro t ht
    simp [filterConj, h t ht]
  · intro h
    rw [list_tasks_eq_filter, List.filter_eq_nil_iff]
    intro t ht
    simp [filterConj, h t ht]
  · intro h
    rw [list_tasks_eq_filter, List.filter_eq_nil_iff]
    intro t ht
    cases hsn : t.assigned_to with
    | none => simp [filterConj, hsn]
    | some snap => simp [filterConj, hsn, h t ht snap hsn]

theorem C10_list_filters_unvalidated_witness :
    step oneTaskState (.listTasks (some "bogus") none none) = oneTaskState ∧
    (∀ t ∈ storeValues oneTaskState.tasks, t.status ≠ "bogus") ∧
    list_tasks oneTaskState (some "bogus") none none = [] :=
  ⟨(C10_list_filters_unvalidated oneTaskState (some "bogus") none none "bogus").1,
   by decide,
   (C10_list_filters_unvalidated oneTaskState (some "bogus") none none "bogus").2.1
     (by decide)⟩

theorem stateWF_step (st : State) (op : Op) (h : stateWF st) : stateWF (step st op) := by
  cases op with
  | createAgent agent_id name role => exact h
  | listAgents => exact h
  | getAgent agent_id => exact h
  | listTasks sf af pf => exact h
  | getTask task_id => exact h
  | summarize => exact h
  | createTask task_id now title description priority =>
    cases hmk : TaskCreate.mk? title description priority with
    | error e =>
      intro e1 he1
      apply h
      simpa [step, hmk] using he1
    | ok body =>
      obtain ⟨hb, hp⟩ := TaskCreate_mk_ok_priority _ _ _ _ hmk
      intro e1 he1
      simp only [step, hmk, create_task] at he1
      rcases mem_storeSet _ _ _ _ he1 with h1 | h1
      · subst h1
        exact ⟨hp, by simp [VALID_STATUSES]⟩
      · exact h _ h1
  | updateTask task_id now title description priority =>
    cases hmk : TaskUpdate.mk? title description priority with
    | error e =>
      intro e1 he1
      apply h
      simpa [step, hmk] using he1
    | ok body =>
      obtain ⟨hb, hp⟩ := TaskUpdate_mk_ok _ _ _ _ hmk
      cases hget : storeGet st.tasks task_id with
      | none =>
        intro e1 he1
        apply h
        simpa [step, hmk, update_task, hget] using he1
      | some t0 =>
        intro e1 he1
        have ht0 := h (task_id, t0) (storeGet_mem _ _ _ hget)
        simp only [step, hmk, update_task, hget] at he1
        rcases mem_storeSet _ _ _ _ he1 with h1 | h1
        · subst h1
          subst hb
          cases title <;> cases description <;> cases priority <;>
            first
              | exact ⟨ht0.1, ht0.2⟩
              | exact ⟨hp _ rfl, ht0.2⟩
        · exact h _ h1
  | setStatus task_id now new_status =>
    cases hmk : StatusUpdate.mk? new_status with
    | error e =>
      intro e1 he1
      apply h
      simpa [step, hmk] using he1
    | ok body =>
      obtain ⟨hb, hs⟩ := StatusUpdate_mk_ok _ _ hmk
      cases hget : storeGet st.tasks task_id with
      | none =>
        intro e1 he1
        apply h
        simpa [step, hmk, update_task_status, hget] using he1
      | some t0 =>
        intro e1 he1
        have ht0 := h (task_id, t0) (storeGet_mem _ _ _ hget)
        simp only [step, hmk, update_task_status, hget] at he1
        rcases mem_storeSet _ _ _ _ he1 with h1 | h1
        · subst h1
          exact ⟨ht0.1, hs⟩
        · exact h _ h1
  | assign task_id now agent_id =>
    cases hget : storeGet st.tasks task_id with
    | none =>
      intro e1 he1
      apply h
      simpa [step, assign_task, hget] using he1
    | some t0 =>
      cases ha : storeGet st.agents agent_id with
      | none =>
        intro e1 he1
        apply h
        simpa [step, assign_task, hget, ha] using he1
      | some a =>
        intro e1 he1
        have ht0 := h (task_id, t0) (storeGet_mem _ _ _ hget)
        simp only [step, assign_task, hget, ha] at he1
        rcases mem_storeSet _ _ _ _ he1 with h1 | h1
        · subst h1
          exact ⟨ht0.1, ht0.2⟩
        · exact h _ h1
  | deleteTask task_id =>
    cases hget : storeGet st.tasks task_id with
    | none =>
      intro e1 he1
      apply h
      simpa [step, delete_task, hget] using he1
    | some t0 =>
      intro e1 he1
      simp only [step, delete_task, hget] at he1
      exact h _ (mem_storeErase _ _ _ he1)

theorem stateWF_run (ops : List Op) : ∀ st, stateWF st → stateWF (ops.foldl step st) := by
  induction ops with
  | nil => intro st h; exact h
  | cons op rest ih =>
    intro st h
    exact ih _ (stateWF_step st op h)

/-- C2: in every state reachable from the empty store by any sequence of the
exposed operations, every stored task's priority is one of low, medium, high
and its status is one of todo, in_progress, review, done. -/
theorem C2_reachable_enums (ops : List Op) (e : String × TaskRec)
    (he : e ∈ (run ops).tasks) :
    e.2.priority ∈ VALID_PRIORITIES ∧ e.2.status ∈ VALID_STATUSES :=
  stateWF_run ops initState (by intro e1 he1; simp [initState] at he1) e he

theorem C2_reachable_enums_witness :
    ("t1", sampleTask) ∈ (run [.createTask "t1" "ts0" "T" "D" none]).tasks ∧
    (sampleTask.priority ∈ VALID_PRIORITIES ∧ sampleTask.status ∈ VALID_STATUSES) :=
  ⟨by decide,
   C2_reachable_enums [.createTask "t1" "ts0" "T" "D" none] ("t1", sampleTask)
     (by decide)⟩

theorem foldl_counts_split (l : List TaskRec) (d1 d2 : List (String × Nat)) :
    l.foldl (fun acc t => (incrIfKey acc.1 t.status, incrIfKey acc.2 t.priority)) (d1, d2) =
      (l.foldl (fun d t => incrIfKey d t.status) d1,
       l.foldl (fun d t => incrIfKey d t.priority) d2) := by
  induction l generalizing d1 d2 with
  | nil => rfl
  | cons hd tl ih =>
    simp only [List.foldl_cons]
    exact ih _ _

theorem foldl_incrIfKey_eq (f : TaskRec → String) (l : List TaskRec) :
    ∀ d : List (String × Nat),
      l.foldl (fun d0 t => incrIfKey d0 (f t)) d =
        d.map (fun kv => (kv.1, kv.2 + (l.filter (fun t => f t = kv.1)).length)) := by
  induction l with
  | nil =>
    intro d
    simp
  | cons hd tl ih =>
    intro d
    simp only [List.foldl_cons]
    rw [ih]
    simp only [incrIfKey, List.map_map]
    apply List.map_congr_left
    rintro ⟨k0, n0⟩ _
    by_cases hk : k0 = f hd
    · subst hk
      simp [Function.comp, List.filter_cons]
      omega
    · simp only [Function.comp, if_neg hk, List.filter_cons]
      rw [if_neg (by simp only [decide_eq_true_eq]; exact fun e => hk e.symm)]

theorem foldl_status_counts (l : List TaskRec) (d : List (String × Nat)) :
    l.foldl (fun d0 t => incrIfKey d0 t.status) d =
      d.map (fun kv => (kv.1, kv.2 + (l.filter (fun t => t.status = kv.1)).length)) :=
  foldl_incrIfKey_eq (fun t => t.status) l d

theorem foldl_priority_counts (l : List TaskRec) (d : List (String × Nat)) :
    l.foldl (fun d0 t => incrIfKey d0 t.priority) d =
      d.map (fun kv => (kv.1, kv.2 + (l.filter (fun t => t.priority = kv.1)).length)) :=
  foldl_incrIfKey_eq (fun t => t.priority) l d

theorem get_dashboard_by_status (st : State) :
    (get_dashboard st).by_status =
      [("todo", ((storeValues st.tasks).filter (fun t => t.status = "todo")).length),
       ("in_progress",
         ((storeValues st.tasks).filter (fun t => t.status = "in_progress")).length),
       ("review", ((storeValues st.tasks).filter (fun t => t.status = "review")).length),
       ("done", ((storeValues st.tasks).filter (fun t => t.status = "done")).length)] := by
  simp only [get_dashboard, foldl_counts_split, foldl_status_counts]
  simp

theorem get_dashboard_by_priority (st : State) :
    (get_dashboard st).by_priority =
      [("low", ((storeValues st.tasks).filter (fun t => t.priority = "low")).length),
       ("medium", ((storeValues st.tasks).filter (fun t => t.priority = "medium")).length),
       ("high", ((storeValues st.tasks).filter (fun t => t.priority = "high")).length)] := by
  simp only [get_dashboard, foldl_counts_split, foldl_priority_counts]
  simp

theorem sum_status_counts (l : List TaskRec) (h : ∀ t ∈ l, t.status ∈ VALID_STATUSES) :
    ((l.filter (fun t => t.status = "todo")).length +
     (l.filter (fun t => t.status = "in_progress")).length +
     (l.filter (fun t => t.status = "review")).length +
     (l.filter (fun t => t.status = "done")).length) = l.length := by
  induction l with
  | nil => rfl
  | cons hd tl ih =>
    have hhd := h hd (List.mem_cons_self hd tl)
    have ihh := ih (fun t ht => h t (List.mem_cons_of_mem _ ht))
    simp only [VALID_STATUSES, List.mem_cons, List.not_mem_nil, or_false] at hhd
    simp only [List.filter_cons, List.length_cons]
    rcases hhd with h1 | h1 | h1 | h1 <;> simp [h1] <;> omega

theorem sum_priority_counts (l : List TaskRec)
    (h : ∀ t ∈ l, t.priority ∈ VALID_PRIORITIES) :
    ((l.filter (fun t => t.priority = "low")).length +
     (l.filter (fun t => t.priority = "medium")).length +
     (l.filter (fun t => t.priority = "high")).length) = l.length := by
  induction l with
  | nil => rfl
  | cons hd tl ih =>
    have hhd := h hd (List.mem_cons_self hd tl)
    have ihh := ih (fun t ht => h t (List.mem_cons_of_mem _ ht))
    simp only [VALID_PRIORITIES, List.mem_cons, List.not_mem_nil, or_false] at hhd
    simp only [List.filter_cons, List.length_cons]
    rcases hhd with h1 | h1 | h1 <;> simp [h1] <;> omega

/-- C8: summarize reports total equal to the size of the unfiltered task list;
by_status always carries exactly the four status keys and by_priority exactly
the three priority keys, each mapped to the count of tasks with that exact
value (so a task with an out-of-enumeration value is silently left out of that
dimension rather than raising an error); and when every stored value is in its
enumeration the per-dimension counts sum back to the total. -/
theorem C8_dashboard_consistency (st : State) :
    (get_dashboard st).total = (list_tasks st none none none).length ∧
    (get_dashboard st).by_status.map Prod.fst = VALID_STATUSES ∧
    (get_dashboard st).by_priority.map Prod.fst = VALID_PRIORITIES ∧
    (∀ kv ∈ (get_dashboard st).by_status,
      kv.2 = ((storeValues st.tasks).filter (fun t => t.status = kv.1)).length) ∧
    (∀ kv ∈ (get_dashboard st).by_priority,
      kv.2 = ((storeValues st.tasks).filter (fun t => t.priority = kv.1)).length) ∧
    ((∀ t ∈ storeValues st.tasks, t.status ∈ VALID_STATUSES) →
      ((get_dashboard st).by_status.map Prod.snd).sum = (get_dashboard st).total) ∧
    ((∀ t ∈ storeValues st.tasks, t.priority ∈ VALID_PRIORITIES) →
      ((get_dashboard st).by_priority.map Prod.snd).sum = (get_dashboard st).total) := by
  refine ⟨rfl, ?_, ?_, ?_, ?_, ?_, ?_⟩
  · rw [get_dashboard_by_status]
    rfl
  · rw [get_dashboard_by_priority]
    rfl
  · rw [get_dashboard_by_status]
    intro kv hkv
    simp only [List.mem_cons, List.not_mem_nil, or_false] at hkv
    rcases hkv with h1 | h1 | h1 | h1 <;> (subst h1; rfl)
  · rw [get_dashboard_by_priority]
    intro kv hkv
    simp only [List.mem_cons, List.not_mem_nil, or_false] at hkv
    rcases hkv with h1 | h1 | h1 <;> (subst h1; rfl)
  · intro h
    rw [get_dashboard_by_status]
    have := sum_status_counts (storeValues st.tasks) h
    simp only [List.map_cons, List.map_nil, List.sum_cons, List.sum_nil]
    show _ = (storeValues st.tasks).length
    omega
  · intro h
    rw [get_dashboard_by_priority]
    have := sum_priority_counts (storeValues st.tasks) h
    simp only [List.map_cons, List.map_nil, List.sum_cons, List.sum_nil]
    show _ = (storeValues st.tasks).length
    omega

theorem C8_dashboard_consistency_witness :
    (get_dashboard oneTaskState).total = (list_tasks oneTaskState none none none).length ∧
    (∀ t ∈ storeValues oneTaskState.tasks, t.status ∈ VALID_STATUSES) ∧
    ((get_dashboard oneTaskState).by_status.map Prod.snd).sum =
      (get_dashboard oneTaskState).total ∧
    (∀ t ∈ storeValues oneTaskState.tasks, t.priority ∈ VALID_PRIORITIES) ∧
    ((get_dashboard oneTaskState).by_priority.map Prod.snd).sum =
      (get_dashboard oneTaskState).total :=
  ⟨(C8_dashboard_consistency oneTaskState).1,
   by decide,
   (C8_dashboard_consistency oneTaskState).2.2.2.2.2.1 (by decide),
   by decide,
   (C8_dashboard_consistency oneTaskState).2.2.2.2.2.2 (by decide)⟩

theorem update_task_ok (st : State) (task_id now : String) (body : TaskUpdate)
    (t0 : TaskRec) (hget : storeGet st.tasks task_id = some t0) :
    update_task st task_id now body =
      .ok ({ st with tasks := storeSet st.tasks task_id (applyTaskUpdate t0 body now) },
           applyTaskUpdate t0 body now) := by
  simp only [update_task, hget]
  rfl

theorem step_classify (st : State) (op : Op) :
    ((step st op).tasks = st.tasks ∧ mutatedId st op = none) ∨
    (∃ task_id record, opCreates op = [task_id] ∧ mutatedId st op = none ∧
      (step st op).tasks = storeSet st.tasks task_id record ∧
      record.updated_at = none) ∨
    (∃ task_id record now t0, opCreates op = [] ∧ mutatedId st op = some task_id ∧
      opNow op = some now ∧
      storeGet st.tasks task_id = some t0 ∧
      (step st op).tasks = storeSet st.tasks task_id record ∧
      record.updated_at = some now) ∨
    (∃ task_id t0, opCreates op = [] ∧ mutatedId st op = none ∧
      storeGet st.tasks task_id = some t0 ∧
      (step st op).tasks = storeErase st.tasks task_id) := by
  cases op with
  | createAgent agent_id name role => exact Or.inl ⟨rfl, rfl⟩
  | listAgents => exact Or.inl ⟨rfl, rfl⟩
  | getAgent agent_id => exact Or.inl ⟨rfl, rfl⟩
  | listTasks sf af pf => exact Or.inl ⟨rfl, rfl⟩
  | getTask task_id => exact Or.inl ⟨rfl, rfl⟩
  | summarize => exact Or.inl ⟨rfl, rfl⟩
  | createTask task_id now title description priority =>
    cases hmk : TaskCreate.mk? title description priority with
    | error e => exact Or.inl ⟨by simp [step, hmk], rfl⟩
    | ok body =>
      refine Or.inr (Or.inl ⟨task_id,
        { id := task_id, title := body.title, description := body.description,
          priority := body.priority, status := "todo", created_at := now,
          updated_at := none, assigned_to := none }, rfl, rfl, ?_, rfl⟩)
      simp [step, hmk, create_task]
  | updateTask task_id now title description priority =>
    cases hmk : TaskUpdate.mk? title description priority with
    | error e =>
      exact Or.inl ⟨by simp [step, hmk], by simp [mutatedId, hmk, isOkB]⟩
    | ok body =>
      cases hget : storeGet st.tasks task_id with
      | none =>
        exact Or.inl ⟨by simp [step, hmk, update_task, hget],
                      by simp [mutatedId, hmk, hget, isOkB]⟩
      | some t0 =>
        refine Or.inr (Or.inr (Or.inl ⟨task_id, applyTaskUpdate t0 body now, now, t0,
          rfl, ?_, rfl, hget, ?_, rfl⟩))
        · simp [mutatedId, hmk, hget, isOkB]
        · simp [step, hmk, update_task_ok st task_id now body t0 hget]
  | setStatus task_id now new_status =>
    cases hmk : StatusUpdate.mk? new_status with
    | error e =>
      exact Or.inl ⟨by simp [step, hmk], by simp [mutatedId, hmk, isOkB]⟩
    | ok body =>
      cases hget : storeGet st.tasks task_id with
      | none =>
        exact Or.inl ⟨by simp [step, hmk, update_task_status, hget],
                      by simp [mutatedId, hmk, hget, isOkB]⟩
      | some t0 =>
        refine Or.inr (Or.inr (Or.inl ⟨task_id,
          { t0 with status := body.status, updated_at := some now }, now, t0,
          rfl, ?_, rfl, hget, ?_, rfl⟩))
        · simp [mutatedId, hmk, hget, isOkB]
        · simp [step, hmk, update_task_status, hget]
  | assign task_id now agent_id =>
    cases hget : storeGet st.tasks task_id with
    | none =>
      exact Or.inl ⟨by simp [step, assign_task, hget],
                    by simp [mutatedId, hget]⟩
    | some t0 =>
      cases ha : storeGet st.agents agent_id with
      | none =>
        exact Or.inl ⟨by simp [step, assign_task, hget, ha],
                      by simp [mutatedId, hget, ha]⟩
      | some a =>
        refine Or.inr (Or.inr (Or.inl ⟨task_id,
          { t0 with assigned_to := some ⟨a.id, a.name, a.role⟩,
                    updated_at := some now }, now, t0,
          rfl, ?_, rfl, hget, ?_, rfl⟩))
        · simp [mutatedId, hget, ha]
        · simp [step, assign_task, hget, ha]
  | deleteTask task_id =>
    cases hget : storeGet st.tasks task_id with
    | none =>
      exact Or.inl ⟨by simp [step, delete_task, hget], rfl⟩
    | some t0 =>
      exact Or.inr (Or.inr (Or.inr ⟨task_id, t0, rfl, rfl, hget,
        by simp [step, delete_task, hget]⟩))

theorem step_keys (st : State) (op : Op) (task_id : String)
    (h : storeGet (step st op).tasks task_id ≠ none) :
    storeGet st.tasks task_id ≠ none ∨ task_id ∈ opCreates op := by
  rcases step_classify st op with ⟨h1, -⟩ | ⟨tid, r, hc, -, h1, -⟩ |
    ⟨tid, r, now1, t0, -, -, -, hget, h1, -⟩ | ⟨tid, t0, -, -, hget, h1⟩
  · rw [h1] at h
    exact Or.inl h
  · by_cases he : task_id = tid
    · subst he
      right
      simp [hc]
    · rw [h1, storeGet_storeSet_ne _ _ _ _ he] at h
      exact Or.inl h
  · by_cases he : task_id = tid
    · subst he
      left
      simp [hget]
    · rw [h1, storeGet_storeSet_ne _ _ _ _ he] at h
      exact Or.inl h
  · by_cases he : task_id = tid
    · subst he
      left
      simp [hget]
    · rw [h1, storeGet_storeErase_ne _ _ _ he] at h
      exact Or.inl h

theorem foldl_step_keys (ops : List Op) : ∀ (st : State) (task_id : String),
    storeGet (ops.foldl step st).tasks task_id ≠ none →
    storeGet st.tasks task_id ≠ none ∨ task_id ∈ createdTaskIds ops := by
  induction ops with
  | nil =>
    intro st task_id h
    exact Or.inl h
  | cons op rest ih =>
    intro st task_id h
    simp only [List.foldl_cons] at h
    rcases ih (step st op) task_id h with h1 | h1
    · rcases step_keys st op task_id h1 with h2 | h2
      · exact Or.inl h2
      · right
        simp [createdTaskIds, h2]
    · right
      simp [createdTaskIds, h1]

theorem step_nodup (st : State) (op : Op) (h : (storeKeys st.tasks).Nodup) :
    (storeKeys (step st op).tasks).Nodup := by
  rcases step_classify st op with ⟨h1, -⟩ | ⟨tid, r, -, -, h1, -⟩ |
    ⟨tid, r, now1, t0, -, -, -, -, h1, -⟩ | ⟨tid, t0, -, -, -, h1⟩ <;> rw [h1]
  · exact h
  · exact storeKeys_nodup_storeSet _ _ _ h
  · exact storeKeys_nodup_storeSet _ _ _ h
  · exact storeKeys_nodup_storeErase _ _ h

theorem C3_aux (ops : List Op) : ∀ (st : State),
    (storeKeys st.tasks).Nodup →
    (createdTaskIds ops).Nodup →
    (∀ tid ∈ createdTaskIds ops, storeGet st.tasks tid = none) →
    ∀ tid t, storeGet (ops.foldl step st).tasks tid = some t →
      (t.updated_at = none ↔
        (tid ∉ mutatedIds st ops ∧
         ∀ t0, storeGet st.tasks tid = some t0 → t0.updated_at = none)) := by
  induction ops with
  | nil =>
    intro st hnd hcn hdisj tid t ht
    simp only [List.foldl_nil] at ht
    constructor
    · intro h0
      refine ⟨by simp [mutatedIds], ?_⟩
      intro t0 h1
      rw [ht] at h1
      cases h1
      exact h0
    · rintro ⟨-, h1⟩
      exact h1 t ht
  | cons op rest ih =>
    intro st hnd hcn hdisj tid t ht
    simp only [List.foldl_cons] at ht
    have hcsplit : createdTaskIds (op :: rest) = opCreates op ++ createdTaskIds rest := rfl
    have hmut : mutatedIds st (op :: rest) =
        (mutatedId st op).toList ++ mutatedIds (step st op) rest := rfl
    rcases step_classify st op with ⟨h1, hm⟩ | ⟨tid0, r, hc, hm, h1, hu⟩ |
      ⟨tid0, r, now1, t0, hc, hm, hn, hget, h1, hu⟩ | ⟨tid0, t0, hc, hm, hget, h1⟩
    · have hcn2 : (createdTaskIds rest).Nodup := by
        rw [hcsplit] at hcn
        exact hcn.of_append_right
      have hdisj2 : ∀ tid1 ∈ createdTaskIds rest,
          storeGet (step st op).tasks tid1 = none := by
        intro tid1 h2
        rw [h1]
        exact hdisj tid1 (by rw [hcsplit]; exact List.mem_append_right _ h2)
      have hih := ih (step st op) (step_nodup st op hnd) hcn2 hdisj2 tid t ht
      rw [h1] at hih
      rw [hmut, hm]
      simpa using hih
    · rw [hc] at hcsplit
      simp only [List.singleton_append] at hcsplit
      have hfresh : tid0 ∉ createdTaskIds rest := by
        rw [hcsplit] at hcn
        exact (List.nodup_cons.mp hcn).1
      have hcn2 : (createdTaskIds rest).Nodup := by
        rw [hcsplit] at hcn
        exact (List.nodup_cons.mp hcn).2
      have hdisj0 : storeGet st.tasks tid0 = none :=
        hdisj tid0 (by rw [hcsplit]; exact List.mem_cons_self _ _)
      have hdisj2 : ∀ tid1 ∈ createdTaskIds rest,
          storeGet (step st op).tasks tid1 = none := by
        intro tid1 h2
        have hne : tid1 ≠ tid0 := by
          intro e
          subst e
          exact hfresh h2
        rw [h1, storeGet_storeSet_ne _ _ _ _ hne]
        exact hdisj tid1 (by rw [hcsplit]; exact List.mem_cons_of_mem _ h2)
      have hih := ih (step st op) (step_nodup st op hnd) hcn2 hdisj2 tid t ht
      rw [hmut, hm]
      simp only [Option.toList_none, List.nil_append]
      by_cases he : tid = tid0
      · subst he
        rw [h1, storeGet_storeSet_self] at hih
        constructor
        · intro h0
          obtain ⟨ha, -⟩ := hih.mp h0
          refine ⟨ha, ?_⟩
          intro t0 h3
          rw [hdisj0] at h3
          exact Option.noConfusion h3
        · rintro ⟨ha, -⟩
          apply hih.mpr
          refine ⟨ha, ?_⟩
          intro t0 h3
          cases h3
          exact hu
      · rw [h1, storeGet_storeSet_ne _ _ _ _ he] at hih
        exact hih
    · rw [hc] at hcsplit
      simp only [List.nil_append] at hcsplit
      have hcn2 : (createdTaskIds rest).Nodup := by
        rw [hcsplit] at hcn
        exact hcn
      have hdisj2 : ∀ tid1 ∈ createdTaskIds rest,
          storeGet (step st op).tasks tid1 = none := by
        intro tid1 h2
        have h3 : storeGet st.tasks tid1 = none :=
          hdisj tid1 (by rw [hcsplit]; exact h2)
        have hne : tid1 ≠ tid0 := by
          intro e
          subst e
          rw [h3] at hget
          exact Option.noConfusion hget
        rw [h1, storeGet_storeSet_ne _ _ _ _ hne]
        exact h3
      have hih := ih (step st op) (step_nodup st op hnd) hcn2 hdisj2 tid t ht
      rw [hmut, hm]
      simp only [Option.toList_some, List.singleton_append]
      by_cases he : tid = tid0
      · subst he
        rw [h1, storeGet_storeSet_self] at hih
        constructor
        · intro h0
          obtain ⟨-, hb⟩ := hih.mp h0
          have h4 := hb r rfl
          rw [hu] at h4
          exact Option.noConfusion h4
        · rintro ⟨ha, -⟩
          exact absurd (List.mem_cons_self _ _) ha
      · rw [h1, storeGet_storeSet_ne _ _ _ _ he] at hih
        constructor
        · intro h0
          obtain ⟨ha, hb⟩ := hih.mp h0
          refine ⟨?_, hb⟩
          intro hmem
          rcases List.mem_cons.mp hmem with h5 | h5
          · exact he h5
          · exact ha h5
        · rintro ⟨ha, hb⟩
          exact hih.mpr ⟨fun h5 => ha (List.mem_cons_of_mem _ h5), hb⟩
    · rw [hc] at hcsplit
      simp only [List.nil_append] at hcsplit
      have hcn2 : (createdTaskIds rest).Nodup := by
        rw [hcsplit] at hcn
        exact hcn
      have hdisj2 : ∀ tid1 ∈ createdTaskIds rest,
          storeGet (step st op).tasks tid1 = none := by
        intro tid1 h2
        have h3 : storeGet st.tasks tid1 = none :=
          hdisj tid1 (by rw [hcsplit]; exact h2)
        rw [h1]
        by_cases he1 : tid1 = tid0
        · subst he1
          exact storeGet_storeErase_self _ _ hnd
        · rw [storeGet_storeErase_ne _ _ _ he1]
          exact h3
      by_cases he : tid = tid0
      · subst he
        have h5 : storeGet (List.foldl step (step st op) rest).tasks tid ≠ none := by
          rw [ht]
          simp
        rcases foldl_step_keys rest (step st op) tid h5 with h6 | h6
        · rw [h1, storeGet_storeErase_self _ _ hnd] at h6
          exact absurd rfl h6
        · have h7 := hdisj tid (by rw [hcsplit]; exact h6)
          rw [h7] at hget
          exact Option.noConfusion hget
      · have hih := ih (step st op) (step_nodup st op hnd) hcn2 hdisj2 tid t ht
        rw [h1, storeGet_storeErase_ne _ _ _ he] at hih
        rw [hmut, hm]
        simpa using hih

/-- C3: in every reachable state with never-reused create ids, a stored
task's updated_at is null exactly when no mutating operation (update,
set_status or assign) has been successfully applied to it, and every
successful mutating operation stores the operation's current timestamp in
updated_at. -/
theorem C3_updated_at_iff_mutated :
    (∀ (ops : List Op), (createdTaskIds ops).Nodup →
      ∀ task_id t, storeGet (run ops).tasks task_id = some t →
        (t.updated_at = none ↔ task_id ∉ mutatedIds initState ops)) ∧
    (∀ (st : State) (op : Op) (task_id : String), mutatedId st op = some task_id →
      ∃ record now, opNow op = some now ∧
        storeGet (step st op).tasks task_id = some record ∧
        record.updated_at = some now) := by
  constructor
  · intro ops hcn task_id t ht
    have h0 := C3_aux ops initState (by simp [initState, storeKeys]) hcn
      (fun tid _ => rfl) task_id t ht
    have h1 : (∀ t0, storeGet initState.tasks task_id = some t0 →
        t0.updated_at = none) := by
      intro t0 h2
      exact Option.noConfusion h2
    rw [h0]
    exact ⟨fun h2 => h2.1, fun h2 => ⟨h2, h1⟩⟩
  · intro st op task_id hm
    rcases step_classify st op with ⟨-, hm2⟩ | ⟨tid0, r, -, hm2, -, -⟩ |
      ⟨tid0, r, now1, t0, -, hm2, hn, hget, h1, hu⟩ | ⟨tid0, t0, -, hm2, -, -⟩
    · rw [hm2] at hm
      exact Option.noConfusion hm
    · rw [hm2] at hm
      exact Option.noConfusion hm
    · rw [hm2] at hm
      injection hm with he
      subst he
      refine ⟨r, now1, hn, ?_, hu⟩
      rw [h1]
      exact storeGet_storeSet_self _ _ _
    · rw [hm2] at hm
      exact Option.noConfusion hm

theorem C3_updated_at_iff_mutated_witness :
    (createdTaskIds
      [.createTask "t1" "ts0" "T" "D" none, .setStatus "t1" "ts1" "done"]).Nodup ∧
    storeGet
      (run [.createTask "t1" "ts0" "T" "D" none, .setStatus "t1" "ts1" "done"]).tasks
      "t1" =
      some { id := "t1", title := "T", description := "D", priority := "medium",
             status := "done", created_at := "ts0", updated_at := some "ts1",
             assigned_to := none } ∧
    ({ id := "t1", title := "T", description := "D", priority := "medium",
       status := "done", created_at := "ts0", updated_at := some "ts1",
       assigned_to := none : TaskRec }.updated_at = none ↔
      "t1" ∉ mutatedIds initState
        [.createTask "t1" "ts0" "T" "D" none, .setStatus "t1" "ts1" "done"]) :=
  ⟨by decide, by decide,
   C3_updated_at_iff_mutated.1
     [.createTask "t1" "ts0" "T" "D" none, .setStatus "t1" "ts1" "done"]
     (by decide) "t1" _ (by decide)⟩

theorem C7_assign_snapshot_witness :
    storeGet taskAgentState.tasks "t1" = some sampleTask ∧
    storeGet taskAgentState.agents "a1" = some sampleAgent ∧
    ∃ st1 t1, assign_task taskAgentState "t1" "ts1" ⟨"a1"⟩ = .ok (st1, t1) ∧
      get_task st1 "t1" = .ok t1 ∧
      t1.assigned_to = some ⟨sampleAgent.id, sampleAgent.name, sampleAgent.role⟩ ∧
      t1 = { sampleTask with
             assigned_to := some ⟨sampleAgent.id, sampleAgent.name, sampleAgent.role⟩
             updated_at := some "ts1" } ∧
      ∀ agents1, get_task { st1 with agents := agents1 } "t1" = .ok t1 :=
  ⟨rfl, rfl,
   C7_assign_snapshot taskAgentState "t1" "ts1" "a1" sampleTask sampleAgent rfl rfl⟩

end Planner
